import Mathlib

/-
Verification development for the FastAPI + crawl4ai web-crawler service.

The definitions below are a shallow embedding of `app/services/scraper.py`
(class `WebScraper`) and `app/utils/helpers.py`.  URLs are modelled at the
level of Python's `urllib.parse.urlparse` six-tuple
(scheme, netloc, path, params, query, fragment); the extra constructor
`Url.unparseable` models the strings on which `urlparse` raises
(e.g. an invalid IPv6 netloc), which is exactly the situation handled by the
`except` branches of `_normalize_url` and `extract_domain_from_url`.
External collaborators (the crawl4ai transport, httpx, BeautifulSoup, the
`re` module) are modelled as oracle functions supplied as parameters; every
piece of control flow, state update, filtering, capping, normalisation and
de-duplication performed by the repository's own code is translated
directly from the source.
-/

namespace WebCrawler

/-- Python `str.lower` restricted to ASCII letters (all values compared by
the scraper are ASCII domain names and email addresses). -/
def pyLower (s : String) : String :=
  ⟨s.data.map Char.toLower⟩

/-- Python `path.rstrip (a slash)`: remove every trailing `/` character. -/
def rstripSlash (s : String) : String :=
  ⟨(s.data.reverse.dropWhile (fun c => c = '/')).reverse⟩

/-- A URL as seen through `urllib.parse.urlparse`: either the parsed
six-tuple or a string on which parsing raises. -/
inductive Url where
  | parsed (scheme netloc path params query fragment : String)
  | unparseable (raw : String)
deriving DecidableEq

/-- `app/utils/helpers.py::extract_domain_from_url`: lower-cased netloc of
the parsed URL; the `except` branch returns the sentinel string. -/
def extract_domain_from_url : Url → String
  | .parsed _ netloc _ _ _ _ => pyLower netloc
  | .unparseable _ => "unknown_domain"

/-- The path component produced by `_normalize_url`:
`parsed.path.rstrip(slash) or slash-string`. -/
def normPath (p : String) : String :=
  if rstripSlash p = "" then "/" else rstripSlash p

/-- `WebScraper._normalize_url`: drop the fragment, collapse trailing
slashes on the path (empty path becomes `/`), keep scheme, netloc, params
and query; on a parsing exception return the input unchanged. -/
def normalize_url : Url → Url
  | .parsed scheme netloc path params query _ =>
      .parsed scheme netloc (normPath path) params query ""
  | .unparseable raw => .unparseable raw

theorem data_mk (l : List Char) : (String.mk l).data = l := rfl

theorem head_dropWhile_false {α : Type} (p : α → Bool) :
    ∀ (l : List α) {a : α} {t : List α}, l.dropWhile p = a :: t → p a = false := by
  intro l
  induction l with
  | nil => intro a t h; simp at h
  | cons x xs ih =>
    intro a t h
    rw [List.dropWhile_cons] at h
    by_cases hp : p x = true
    · rw [if_pos hp] at h
      exact ih h
    · rw [if_neg hp] at h
      injection h with h1 h2
      subst h1
      simp at hp
      simp [hp]

theorem rstripSlash_decomp (p : String) :
    ∃ k, p.data = (rstripSlash p).data ++ List.replicate k '/' := by
  refine ⟨(p.data.reverse.takeWhile (fun c => c = '/')).length, ?_⟩
  conv_lhs => rw [← List.reverse_reverse p.data,
    ← List.takeWhile_append_dropWhile (p := fun c => decide (c = '/')) (l := p.data.reverse)]
  rw [List.reverse_append]
  simp only [rstripSlash, data_mk]
  congr 1
  have hrep : p.data.reverse.takeWhile (fun c => decide (c = '/'))
      = List.replicate ((p.data.reverse.takeWhile (fun c => decide (c = '/'))).length) '/' := by
    apply List.eq_replicate_of_mem
    intro b hb
    have := List.mem_takeWhile_imp hb
    simpa using this
  rw [hrep]
  simp [List.reverse_replicate]

theorem rstripSlash_no_trailing (p : String) :
    (rstripSlash p).data.getLast? ≠ some '/' := by
  intro hlast
  simp only [rstripSlash, data_mk] at hlast
  rw [List.getLast?_reverse] at hlast
  cases hne : p.data.reverse.dropWhile (fun c => decide (c = '/')) with
  | nil => rw [hne] at hlast; simp at hlast
  | cons a t =>
    rw [hne] at hlast
    simp only [List.head?_cons, Option.some.injEq] at hlast
    have hfalse := head_dropWhile_false (fun c => decide (c = '/')) p.data.reverse hne
    rw [hlast] at hfalse
    simp at hfalse

/-- C9: `_normalize_url` removes the fragment, collapses every trailing
slash on the path (a path reducing to empty becomes the root slash),
preserves scheme, netloc, params and query unchanged, and returns the
input URL unmodified when parsing raises. -/
theorem c9_normalize_url_componentwise
    (scheme netloc path params query fragment raw : String) :
    (normalize_url (Url.parsed scheme netloc path params query fragment)
        = Url.parsed scheme netloc (normPath path) params query "")
    ∧ (∃ k, path.data = (normPath path).data ++ List.replicate k '/'
          ∨ (normPath path = "/" ∧ path.data = List.replicate k '/'))
    ∧ (normPath path = "/" ∨ (normPath path).data.getLast? ≠ some '/')
    ∧ normalize_url (Url.unparseable raw) = Url.unparseable raw := by
  refine ⟨rfl, ?_, ?_, rfl⟩
  · obtain ⟨k, hk⟩ := rstripSlash_decomp path
    by_cases h : rstripSlash path = ""
    · refine ⟨k, Or.inr ⟨by simp [normPath, h], ?_⟩⟩
      rw [hk, h]
      simp
    · refine ⟨k, Or.inl ?_⟩
      simp only [normPath, if_neg h]
      exact hk
  · by_cases h : rstripSlash path = ""
    · exact Or.inl (by simp [normPath, h])
    · refine Or.inr ?_
      simp only [normPath, if_neg h]
      exact rstripSlash_no_trailing path

/-- Per-session frontier state for the visited-set discipline of
`_crawl_website_comprehensive`: the session's base domain and maximum
depth, the set of already-crawled normalized URLs (`self.crawled_urls`),
and an audit log of the fetches actually started. -/
structure VisitState where
  baseDomain : String
  maxDepth : Nat
  visited : List Url
  fetches : List Url
deriving DecidableEq

/-- One atomic attempt to crawl a URL at a given depth: the guard sequence
and the `crawled_urls.add` of `_crawl_website_comprehensive` (depth bound,
raw-URL membership, normalized-URL membership, domain scope, then insert)
up to the point where the fetch of the normalized URL begins.  In the
source no `await` occurs between the membership tests and the insertion,
so under cooperative asyncio scheduling every interleaving of concurrent
expansion workers is some sequence of these atomic steps. -/
def visitAttempt (s : VisitState) (attempt : Url × Nat) : VisitState :=
  if attempt.2 > s.maxDepth ∨ attempt.1 ∈ s.visited then s
  else if normalize_url attempt.1 ∈ s.visited then s
  else if extract_domain_from_url (normalize_url attempt.1) ≠ s.baseDomain then s
  else { s with visited := s.visited ++ [normalize_url attempt.1],
                fetches := s.fetches ++ [normalize_url attempt.1] }

theorem foldl_inv {α β : Type} (P : α → Prop) (f : α → β → α)
    (hstep : ∀ a b, P a → P (f a b)) :
    ∀ (l : List β) (s : α), P s → P (l.foldl f s) := by
  intro l
  induction l with
  | nil => intro s h; exact h
  | cons x xs ih => intro s h; exact ih _ (hstep _ _ h)

theorem visitAttempt_inv (s : VisitState) (a : Url × Nat)
    (h : s.fetches.Nodup ∧ ∀ u ∈ s.fetches, u ∈ s.visited) :
    (visitAttempt s a).fetches.Nodup
    ∧ ∀ u ∈ (visitAttempt s a).fetches, u ∈ (visitAttempt s a).visited := by
  obtain ⟨h1, h2⟩ := h
  unfold visitAttempt
  split
  · exact ⟨h1, h2⟩
  · split
    · exact ⟨h1, h2⟩
    · split
      · exact ⟨h1, h2⟩
      · rename_i hdep hvis hdom
        constructor
        · rw [List.nodup_append]
          refine ⟨h1, List.nodup_singleton _, ?_⟩
          intro u hu
          simp only [List.mem_singleton]
          intro heq
          exact hvis (heq ▸ h2 u hu)
        · intro u hu
          rw [List.mem_append] at hu ⊢
          cases hu with
          | inl hu => exact Or.inl (h2 u hu)
          | inr hu => exact Or.inr hu

/-- C1: within one crawl session, no URL is fetched twice.  Along any
interleaving of atomic visit attempts (arbitrary URLs and depths, in
particular concurrent workers of one depth batch), the log of started
fetches never repeats a normalized URL, every fetched URL was inserted in
the visited set before (or at the moment) its fetch began, and an attempt
whose normalized form is already visited leaves the state unchanged —
i.e. it returns without fetching. -/
theorem c1_no_url_fetched_twice (init : VisitState) (attempts : List (Url × Nat))
    (h1 : init.fetches.Nodup) (h2 : ∀ u ∈ init.fetches, u ∈ init.visited) :
    (attempts.foldl visitAttempt init).fetches.Nodup
    ∧ (∀ u ∈ (attempts.foldl visitAttempt init).fetches,
        u ∈ (attempts.foldl visitAttempt init).visited)
    ∧ (∀ (s : VisitState) (a : Url × Nat),
        normalize_url a.1 ∈ s.visited → visitAttempt s a = s) := by
  have hfold := foldl_inv
    (P := fun s : VisitState => s.fetches.Nodup ∧ ∀ u ∈ s.fetches, u ∈ s.visited)
    visitAttempt visitAttempt_inv attempts init ⟨h1, h2⟩
  refine ⟨hfold.1, hfold.2, ?_⟩
  intro s a hn
  by_cases hg : a.2 > s.maxDepth ∨ a.1 ∈ s.visited
  · simp [visitAttempt, hg]
  · simp [visitAttempt, hg, hn]

def c1InitEx : VisitState := ⟨"ex.com", 2, [], []⟩

def c1AttemptsEx : List (Url × Nat) :=
  [(Url.parsed "https" "ex.com" "/a" "" "" "", 0),
   (Url.parsed "https" "ex.com" "/a" "" "" "", 1)]

theorem c1_no_url_fetched_twice_witness :
    (c1AttemptsEx.foldl visitAttempt c1InitEx).fetches.Nodup
    ∧ (∀ u ∈ (c1AttemptsEx.foldl visitAttempt c1InitEx).fetches,
        u ∈ (c1AttemptsEx.foldl visitAttempt c1InitEx).visited)
    ∧ (∀ (s : VisitState) (a : Url × Nat),
        normalize_url a.1 ∈ s.visited → visitAttempt s a = s) := by
  have h := c1_no_url_fetched_twice c1InitEx c1AttemptsEx
    (by simp [c1InitEx]) (by simp [c1InitEx])
  exact ⟨h.1, h.2.1, h.2.2⟩

/-- Python `str.replace` on character lists, with a structural fuel
argument (one unit per consumed character, so fuel equal to the input
length is exact): replace every non-overlapping occurrence of `pat` (left
to right) by `rep`.  An empty pattern leaves the input unchanged (the
scraper only replaces the non-empty literals `mailto:` and `tel:`). -/
def replaceListAux (pat rep : List Char) : Nat → List Char → List Char
  | 0, l => l
  | _ + 1, [] => []
  | fuel + 1, c :: cs =>
    if pat ≠ [] ∧ pat.isPrefixOf (c :: cs) then
      rep ++ replaceListAux pat rep fuel ((c :: cs).drop pat.length)
    else
      c :: replaceListAux pat rep fuel cs

/-- Python `str.replace`. -/
def pyReplace (s pat rep : String) : String :=
  ⟨replaceListAux pat.data rep.data s.data.length s.data⟩

/-- Python `str.startswith`: prefix test at the character level. -/
def pyStartsWith (s pre : String) : Bool :=
  pre.data.isPrefixOf s.data

/-- The Python containment test of a single character in a string. -/
def pyContainsChar (s : String) (c : Char) : Bool :=
  s.data.contains c

/-- Python `str.strip()`: remove leading and trailing whitespace. -/
def pyStrip (s : String) : String :=
  ⟨((s.data.dropWhile Char.isWhitespace).reverse.dropWhile Char.isWhitespace).reverse⟩

/-- A contact record as built by `_extract_contact_comprehensive`.
`confidence_pct` is the declared confidence score in hundredths
(0.95 ↦ 95 etc.). -/
structure Contact where
  ctype : String
  value : String
  page_url : String
  confidence_pct : Nat
  extraction_method : String
deriving DecidableEq

/-- One `re.findall` result of the four phone patterns: the US pattern has
three capture groups (a 3-tuple in Python), the other three patterns have
none (a plain string). -/
inductive PhoneMatch where
  | grouped (a b c : String)
  | plain (s : String)
deriving DecidableEq

/-- An element returned by `soup.select` for one of the eight contact
selectors.  `href` is `element.get` of href with default empty (only read
for anchors); `textEmails` are the email-regex matches over
`element.get_text()` (only read for non-anchors). -/
structure ContactElem where
  isAnchor : Bool
  href : String
  textEmails : List String
deriving DecidableEq

/-- The parts of a page that `_extract_contact_comprehensive` obtains from
the external collaborators BeautifulSoup and `re`: the email-regex matches
over `soup.get_text()`, the concatenated phone-pattern matches, and the
concatenated `soup.select` results over the eight contact selectors. -/
structure ContactPage where
  textEmails : List String
  phoneMatches : List PhoneMatch
  selected : List ContactElem
deriving DecidableEq

/-- `''.join(match)` and `str(match)`: the textual form of a phone match. -/
def phoneStr : PhoneMatch → String
  | .grouped a b c => a ++ b ++ c
  | .plain s => s

/-- `re.sub` keeping only digits and plus signs. -/
def phoneClean (s : String) : String :=
  ⟨s.data.filter (fun c => c.isDigit ∨ c = '+')⟩

/-- The email loop over `list(set(emails))` truncated to 10: keep matches
that are non-empty and longer than 5 characters, lower-cased, confidence
0.95. -/
def emailRegexPass (base_url : String) (emailList : List String) : List Contact :=
  (emailList.take 10).flatMap (fun email =>
    if email ≠ "" ∧ email.length > 5 then
      [⟨"email", pyLower email, base_url, 95, "regex_pattern_matching"⟩]
    else [])

/-- The phone loop over the first 10 matches with the `processed_phones`
set: keep matches whose digit-only form has at least 10 characters and was
not seen before, valued by their display form, confidence 0.8. -/
def phoneRegexPass (base_url : String) (seen : List String) :
    List PhoneMatch → List Contact
  | [] => []
  | m :: ms =>
    if (phoneClean (phoneStr m)).length ≥ 10 ∧ phoneClean (phoneStr m) ∉ seen then
      ⟨"phone", phoneStr m, base_url, 80, "regex_pattern_matching"⟩
        :: phoneRegexPass base_url (seen ++ [phoneClean (phoneStr m)]) ms
    else
      phoneRegexPass base_url seen ms

/-- The contribution of one selected element: `mailto:` anchors yield a
lower-cased email at confidence 0.98, `tel:` anchors a phone at 0.98, and
non-anchor elements up to three regex emails of their text at 0.90. -/
def selContrib (base_url : String) (el : ContactElem) : List Contact :=
  if el.isAnchor then
    if pyStartsWith el.href "mailto:" then
      if pyStrip (pyReplace el.href "mailto:" "") ≠ ""
          ∧ pyContainsChar (pyStrip (pyReplace el.href "mailto:" "")) '@' then
        [⟨"email", pyLower (pyStrip (pyReplace el.href "mailto:" "")), base_url, 98,
          "html_mailto_link"⟩]
      else []
    else if pyStartsWith el.href "tel:" then
      if pyStrip (pyReplace el.href "tel:" "") ≠ ""
          ∧ (pyStrip (pyReplace el.href "tel:" "")).length ≥ 10 then
        [⟨"phone", pyStrip (pyReplace el.href "tel:" ""), base_url, 98, "html_tel_link"⟩]
      else []
    else []
  else
    (el.textEmails.take 3).flatMap (fun email =>
      if email ≠ "" ∧ email.length > 5 then
        [⟨"email", pyLower email, base_url, 90, "html_element_text"⟩]
      else [])

/-- The `contacts` list before the final de-duplication: regex emails,
then regex phones, then the selector loop, in source order.  `setOrder`
is the iteration order of the Python set built from the regex email
matches (fixed per process by the string hash seed). -/
def contactCandidates (setOrder : List String → List String) (page : ContactPage)
    (base_url : String) : List Contact :=
  emailRegexPass base_url (setOrder page.textEmails)
    ++ phoneRegexPass base_url [] (page.phoneMatches.take 10)
    ++ page.selected.flatMap (selContrib base_url)

/-- The de-duplication key of the final pass: the Python f-string
of type and value joined by a colon. -/
def contactKey (c : Contact) : String :=
  c.ctype ++ ":" ++ c.value

/-- The final de-duplication loop with `seen_values`: keep the first
record for each type-and-value key, discard all later duplicates. -/
def dedupContacts (seen : List String) : List Contact → List Contact
  | [] => []
  | c :: cs =>
    if contactKey c ∈ seen then dedupContacts seen cs
    else c :: dedupContacts (seen ++ [contactKey c]) cs

/-- `WebScraper._extract_contact_comprehensive`: gather all candidate
records, then de-duplicate by type-and-value key. -/
def extract_contact_comprehensive (setOrder : List String → List String)
    (page : ContactPage) (base_url : String) : List Contact :=
  dedupContacts [] (contactCandidates setOrder page base_url)

/-- `list(set(emails))`: a permutation of the distinct elements of the
original list, in the (per-process fixed) hash iteration order. -/
def IsPySetList (orig out : List String) : Prop :=
  out.Nodup ∧ (∀ x ∈ out, x ∈ orig) ∧ (∀ x ∈ orig, x ∈ out)

instance (orig out : List String) : Decidable (IsPySetList orig out) := by
  unfold IsPySetList
  infer_instance

theorem string_append_cancel_left {s a b : String} (h : s ++ a = s ++ b) : a = b := by
  have hd : s.data ++ a.data = s.data ++ b.data := by
    have := congrArg String.data h
    simpa [String.data_append] using this
  have hab := List.append_cancel_left hd
  cases a
  cases b
  exact congrArg String.mk hab

theorem dedupContacts_filter_key (k : String) :
    ∀ (l : List Contact) (seen : List String),
      (dedupContacts seen l).filter (fun c => decide (contactKey c = k))
        = if k ∈ seen then []
          else (l.find? (fun c => decide (contactKey c = k))).toList := by
  intro l
  induction l with
  | nil => intro seen; simp [dedupContacts]
  | cons c cs ih =>
    intro seen
    rw [dedupContacts]
    by_cases hc : contactKey c ∈ seen
    · rw [if_pos hc, ih seen]
      by_cases hk : k ∈ seen
      · rw [if_pos hk, if_pos hk]
      · rw [if_neg hk, if_neg hk]
        have hck : contactKey c ≠ k := fun h => hk (h ▸ hc)
        rw [List.find?_cons_of_neg _ (by simpa using hck)]
    · rw [if_neg hc]
      by_cases hck : contactKey c = k
      · have hk : k ∉ seen := fun h => hc (hck ▸ h)
        rw [List.filter_cons_of_pos (by simpa using hck), ih (seen ++ [contactKey c])]
        rw [if_pos (by simp [hck]), if_neg hk]
        rw [List.find?_cons_of_pos _ (by simpa using hck)]
        simp
      · rw [List.filter_cons_of_neg (by simpa using hck), ih (seen ++ [contactKey c])]
        have hmem : (k ∈ seen ++ [contactKey c]) ↔ k ∈ seen := by
          simp only [List.mem_append, List.mem_singleton]
          constructor
          · rintro (h | h)
            · exact h
            · exact absurd h.symm hck
          · exact Or.inl
        by_cases hk : k ∈ seen
        · rw [if_pos (hmem.mpr hk), if_pos hk]
        · rw [if_neg (fun h => hk (hmem.mp h)), if_neg hk]
          rw [List.find?_cons_of_neg _ (by simpa using hck)]

theorem dedupContacts_subset :
    ∀ (l : List Contact) (seen : List String) (c : Contact),
      c ∈ dedupContacts seen l → c ∈ l := by
  intro l
  induction l with
  | nil => intro seen c h; simp [dedupContacts] at h
  | cons x xs ih =>
    intro seen c h
    rw [dedupContacts] at h
    by_cases hx : contactKey x ∈ seen
    · rw [if_pos hx] at h
      exact List.mem_cons_of_mem _ (ih _ _ h)
    · rw [if_neg hx] at h
      rcases List.mem_cons.1 h with h | h
      · exact h ▸ List.mem_cons_self _ _
      · exact List.mem_cons_of_mem _ (ih _ _ h)

theorem dedupContacts_keys_nodup :
    ∀ (l : List Contact) (seen : List String),
      ((dedupContacts seen l).map contactKey).Nodup
      ∧ ∀ k ∈ (dedupContacts seen l).map contactKey, k ∉ seen := by
  intro l
  induction l with
  | nil => intro seen; simp [dedupContacts]
  | cons c cs ih =>
    intro seen
    rw [dedupContacts]
    by_cases hc : contactKey c ∈ seen
    · rw [if_pos hc]
      exact ih seen
    · rw [if_neg hc]
      obtain ⟨ihn, ihs⟩ := ih (seen ++ [contactKey c])
      refine ⟨?_, ?_⟩
      · rw [List.map_cons, List.nodup_cons]
        refine ⟨?_, ihn⟩
        intro hmem
        have := ihs _ hmem
        simp at this
      · intro k hk
        rw [List.map_cons, List.mem_cons] at hk
        rcases hk with hk | hk
        · exact hk ▸ hc
        · intro hks
          exact ihs k hk (by simp [hks])

theorem dedupContacts_of_nodup :
    ∀ (l : List Contact) (seen : List String),
      (l.map contactKey).Nodup
      → (∀ k ∈ l.map contactKey, k ∉ seen)
      → dedupContacts seen l = l := by
  intro l
  induction l with
  | nil => intro seen _ _; rfl
  | cons c cs ih =>
    intro seen hnd hout
    rw [List.map_cons, List.nodup_cons] at hnd
    rw [dedupContacts, if_neg (hout _ (by simp))]
    congr 1
    refine ih _ hnd.2 ?_
    intro k hk hkin
    rcases List.mem_append.1 hkin with h | h
    · exact hout k (by simp [hk]) h
    · rw [List.mem_singleton] at h
      exact hnd.1 (h ▸ hk)

theorem emailRegexPass_ctype (base_url : String) (emailList : List String) :
    ∀ c ∈ emailRegexPass base_url emailList, c.ctype = "email" := by
  intro c hc
  rw [emailRegexPass] at hc
  rcases List.mem_flatMap.1 hc with ⟨e, _, he⟩
  by_cases h : e ≠ "" ∧ e.length > 5
  · rw [if_pos h] at he
    rw [List.mem_singleton] at he
    rw [he]
  · rw [if_neg h] at he
    simp at he

theorem phoneRegexPass_ctype (base_url : String) :
    ∀ (ms : List PhoneMatch) (seen : List String),
      ∀ c ∈ phoneRegexPass base_url seen ms, c.ctype = "phone" := by
  intro ms
  induction ms with
  | nil => intro seen c hc; simp [phoneRegexPass] at hc
  | cons m ms ih =>
    intro seen c hc
    rw [phoneRegexPass] at hc
    by_cases h : (phoneClean (phoneStr m)).length ≥ 10 ∧ phoneClean (phoneStr m) ∉ seen
    · rw [if_pos h] at hc
      rcases List.mem_cons.1 hc with hc | hc
      · rw [hc]
      · exact ih _ c hc
    · rw [if_neg h] at hc
      exact ih _ c hc

theorem selContrib_ctype (base_url : String) (el : ContactElem) :
    ∀ c ∈ selContrib base_url el, c.ctype = "email" ∨ c.ctype = "phone" := by
  intro c hc
  rw [selContrib] at hc
  by_cases ha : el.isAnchor = true
  · rw [if_pos ha] at hc
    by_cases hm : pyStartsWith el.href "mailto:" = true
    · rw [if_pos hm] at hc
      split at hc
      · rw [List.mem_singleton] at hc
        exact Or.inl (by rw [hc])
      · simp at hc
    · rw [if_neg hm] at hc
      by_cases ht : pyStartsWith el.href "tel:" = true
      · rw [if_pos ht] at hc
        split at hc
        · rw [List.mem_singleton] at hc
          exact Or.inr (by rw [hc])
        · simp at hc
      · rw [if_neg ht] at hc
        simp at hc
  · rw [if_neg ha] at hc
    rcases List.mem_flatMap.1 hc with ⟨e, _, he⟩
    split at he
    · rw [List.mem_singleton] at he
      exact Or.inl (by rw [he])
    · simp at he

theorem contactCandidates_ctype (setOrder : List String → List String)
    (page : ContactPage) (base_url : String) :
    ∀ c ∈ contactCandidates setOrder page base_url,
      c.ctype = "email" ∨ c.ctype = "phone" := by
  intro c hc
  rw [contactCandidates] at hc
  rcases List.mem_append.1 hc with hc | hc
  · rcases List.mem_append.1 hc with hc | hc
    · exact Or.inl (emailRegexPass_ctype _ _ c hc)
    · exact Or.inr (phoneRegexPass_ctype _ _ _ c hc)
  · rcases List.mem_flatMap.1 hc with ⟨el, _, he⟩
    exact selContrib_ctype _ el c he

theorem contactKey_email_iff (c : Contact) (v : String)
    (h : c.ctype = "email" ∨ c.ctype = "phone") :
    contactKey c = "email:" ++ v ↔ (c.ctype = "email" ∧ c.value = v) := by
  rcases h with h | h
  · rw [contactKey, h]
    constructor
    · intro heq
      refine ⟨rfl, ?_⟩
      have : ("email:" : String) ++ c.value = "email:" ++ v := by
        have hlit : ("email" : String) ++ ":" = "email:" := by decide
        rw [← hlit, String.append_assoc] at heq ⊢
        exact heq
      exact string_append_cancel_left this
    · rintro ⟨-, hv⟩
      rw [hv]
      have hlit : ("email" : String) ++ ":" = "email:" := by decide
      rw [← hlit, String.append_assoc]
  · rw [contactKey, h]
    constructor
    · intro heq
      exfalso
      have hd := congrArg String.data heq
      simp only [String.data_append] at hd
      simp only [List.cons_append, List.nil_append] at hd
      injection hd with h1 h2
      exact absurd h1 (by decide)
    · rintro ⟨habs, -⟩
      exact absurd habs (by decide)

/-- C5: when the same email address occurs both as a `mailto:` link among
the selected contact elements and as a plain-text match of the email regex,
the extractor returns exactly one contact record with that type-and-value
pair; the final de-duplication keeps the first record seen for the key and
discards all later duplicates (the filtered output is exactly the first
matching candidate). -/
theorem c5_mailto_and_regex_email_once
    (σ : List String → List String) (page : ContactPage) (base_url : String)
    (e : String) (el : ContactElem)
    (hσ : IsPySetList page.textEmails (σ page.textEmails))
    (he : e ∈ page.textEmails)
    (hel : el ∈ page.selected)
    (hanchor : el.isAnchor = true)
    (hmailto : pyStartsWith el.href "mailto:" = true)
    (hne : pyStrip (pyReplace el.href "mailto:" "") ≠ "")
    (hat : pyContainsChar (pyStrip (pyReplace el.href "mailto:" "")) '@' = true)
    (hsame : pyLower (pyStrip (pyReplace el.href "mailto:" "")) = pyLower e) :
    (extract_contact_comprehensive σ page base_url).filter
        (fun c => decide (c.ctype = "email" ∧ c.value = pyLower e))
      = ((contactCandidates σ page base_url).find?
          (fun c => decide (contactKey c = "email:" ++ pyLower e))).toList
    ∧ ((extract_contact_comprehensive σ page base_url).filter
        (fun c => decide (c.ctype = "email" ∧ c.value = pyLower e))).length = 1 := by
  have hsub : ∀ c ∈ extract_contact_comprehensive σ page base_url,
      c.ctype = "email" ∨ c.ctype = "phone" := by
    intro c hc
    exact contactCandidates_ctype σ page base_url c (dedupContacts_subset _ _ _ hc)
  have hcongr : (extract_contact_comprehensive σ page base_url).filter
        (fun c => decide (c.ctype = "email" ∧ c.value = pyLower e))
      = (extract_contact_comprehensive σ page base_url).filter
        (fun c => decide (contactKey c = "email:" ++ pyLower e)) := by
    apply List.filter_congr
    intro c hc
    rw [decide_eq_decide]
    exact (contactKey_email_iff c (pyLower e) (hsub c hc)).symm
  have hkey := dedupContacts_filter_key ("email:" ++ pyLower e)
    (contactCandidates σ page base_url) []
  rw [if_neg (List.not_mem_nil _)] at hkey
  have heq : (extract_contact_comprehensive σ page base_url).filter
        (fun c => decide (c.ctype = "email" ∧ c.value = pyLower e))
      = ((contactCandidates σ page base_url).find?
          (fun c => decide (contactKey c = "email:" ++ pyLower e))).toList := by
    rw [hcongr]
    exact hkey
  refine ⟨heq, ?_⟩
  rw [heq]
  have hmem : ∃ c ∈ contactCandidates σ page base_url,
      contactKey c = "email:" ++ pyLower e := by
    refine ⟨⟨"email", pyLower (pyStrip (pyReplace el.href "mailto:" "")), base_url, 98,
      "html_mailto_link"⟩, ?_, ?_⟩
    · rw [contactCandidates]
      refine List.mem_append.2 (Or.inr ?_)
      refine List.mem_flatMap.2 ⟨el, hel, ?_⟩
      rw [selContrib, if_pos hanchor, if_pos hmailto, if_pos ⟨hne, hat⟩]
      exact List.mem_singleton.2 rfl
    · rw [contactKey]
      simp only
      rw [hsame]
      have hlit : ("email" : String) ++ ":" = "email:" := by decide
      rw [← hlit, String.append_assoc]
  have hsome : ((contactCandidates σ page base_url).find?
      (fun c => decide (contactKey c = "email:" ++ pyLower e))).isSome := by
    rw [List.find?_isSome]
    obtain ⟨c0, hc0, hk0⟩ := hmem
    exact ⟨c0, hc0, by simp [hk0]⟩
  obtain ⟨c1, hc1⟩ := Option.isSome_iff_exists.1 hsome
  rw [hc1]
  rfl

def c5PageEx : ContactPage :=
  ⟨["A@b.co"], [], [⟨true, "mailto:A@b.co", []⟩]⟩

theorem c5_mailto_and_regex_email_once_witness :
    (extract_contact_comprehensive (fun l => l) c5PageEx "https://ex.com").filter
        (fun c => decide (c.ctype = "email" ∧ c.value = pyLower "A@b.co"))
      = ((contactCandidates (fun l => l) c5PageEx "https://ex.com").find?
          (fun c => decide (contactKey c = "email:" ++ pyLower "A@b.co"))).toList
    ∧ ((extract_contact_comprehensive (fun l => l) c5PageEx "https://ex.com").filter
        (fun c => decide (c.ctype = "email" ∧ c.value = pyLower "A@b.co"))).length = 1 :=
  c5_mailto_and_regex_email_once (fun l => l) c5PageEx "https://ex.com"
    "A@b.co" ⟨true, "mailto:A@b.co", []⟩
    (by decide) (by decide) (by decide) (by decide) (by decide) (by decide)
    (by decide) (by decide)

/-- C6: contact extraction is deterministic: with the process's set
iteration order fixed, running `_extract_contact_comprehensive` twice on
the identical page yields the same list; moreover the output carries
pairwise-distinct type-and-value keys, so re-running the de-duplication
pass on it changes nothing (the output is a fixed point of dedup). -/
theorem c6_contact_extraction_deterministic
    (σ : List String → List String) (page : ContactPage) (base_url : String) :
    extract_contact_comprehensive σ page base_url
      = extract_contact_comprehensive σ page base_url
    ∧ ((extract_contact_comprehensive σ page base_url).map contactKey).Nodup
    ∧ dedupContacts [] (extract_contact_comprehensive σ page base_url)
      = extract_contact_comprehensive σ page base_url := by
  refine ⟨rfl, ?_, ?_⟩
  · exact (dedupContacts_keys_nodup (contactCandidates σ page base_url) []).1
  · have h := dedupContacts_keys_nodup (contactCandidates σ page base_url) []
    exact dedupContacts_of_nodup _ [] h.1 (fun k _ => List.not_mem_nil k)

/-- A record appended to one of the typed collections (`text`, `images`,
`contact`, `products`, `social_media`, `metadata`): the payload is the
opaque dictionary produced by the corresponding BeautifulSoup
sub-extractor, tagged with the page URL and the crawl depth at which the
page was processed. -/
structure PageItem where
  page_url : Url
  depth : Nat
  payload : String
deriving DecidableEq

/-- The outputs of the per-page BeautifulSoup sub-extractors of
`_extract_comprehensive_data` (oracle: they are pure functions of the
page's HTML and text). -/
structure Extracted where
  text : List String
  images : List String
  contact : List String
  products : List String
  social_media : List String
  metadataPayload : String
deriving DecidableEq

/-- One entry of `sitemap.crawl_structure`. -/
structure SitemapEntry where
  depth : Nat
  links_found : List Url
  data_extracted : List (Option String)
deriving DecidableEq

/-- `sitemap.coverage_summary`. -/
structure CoverageSummary where
  total_pages : Nat
  pages_with_text : Nat
  pages_with_images : Nat
  pages_with_contact : Nat
  pages_with_products : Nat
  pages_with_social_media : Nat
deriving DecidableEq

/-- The aggregate `self.crawl_data` structure. -/
structure CrawlData where
  text : List PageItem
  images : List PageItem
  contact : List PageItem
  products : List PageItem
  social_media : List PageItem
  metadata : List PageItem
  raw_html : List (Url × Nat × String)
  crawl_structure : List (Url × SitemapEntry)
  coverage : CoverageSummary
deriving DecidableEq

/-- `reset_crawl_data`: every aggregate collection empty, all counters 0. -/
def emptyCrawlData : CrawlData :=
  ⟨[], [], [], [], [], [], [], [], ⟨0, 0, 0, 0, 0, 0⟩⟩

/-- Python dict assignment on an association list keyed by URL. -/
def dictSet {β : Type} (m : List (Url × β)) (k : Url) (v : β) : List (Url × β) :=
  if k ∈ m.map Prod.fst then
    m.map (fun p => if p.1 = k then (k, v) else p)
  else m ++ [(k, v)]

/-- Python `set.add` on a list-as-set. -/
def setAdd (l : List Url) (u : Url) : List Url :=
  if u ∈ l then l else l ++ [u]

/-- The external collaborators of one crawl session: `primary pt u` is the
crawl4ai HTTP-only fetch of `u` run with a `page_timeout` of `pt`
milliseconds, `fallback u` the direct httpx fetch (browser-like
User-Agent, fixed 30 s timeout, markup stripped to plain text); each
returns its duration in seconds and either `(html, text)` or an error.
`extract` produces the per-page sub-extractor outputs and `links` the
same-domain links that `_extract_all_links_with_beautifulsoup` returns
for a page. -/
structure Env where
  primary : Nat → Url → Nat × Except String (String × String)
  fallback : Url → Nat × Except String (String × String)
  extract : Url → String → String → Extracted
  links : Url → String → List Url

/-- `page_timeout=min(self.timeout * 1000, 30000)` from the
`CrawlerRunConfig` of `_crawl_with_http_crawl4ai` (configured timeout in
seconds, cap expressed in milliseconds). -/
def runConfigPageTimeout (timeoutS : Nat) : Nat :=
  min (timeoutS * 1000) 30000

/-- The fixed timeout (in seconds) of the httpx fallback client. -/
def httpxTimeoutSeconds : Nat := 30

/-- The browser-like User-Agent header of the httpx fallback client. -/
def httpxUserAgent : String :=
  "Mozilla/5.0 (Windows NT 10.0; Win64; x64) AppleWebKit/537.36 (KHTML, like Gecko) Chrome/91.0.4472.124 Safari/537.36"

/-- An audit record of one transport invocation. -/
inductive TransportCall where
  | primaryCall (pageTimeoutMs : Nat) (u : Url)
  | fallbackCall (u : Url)
deriving DecidableEq

/-- The fetch sequence of `_crawl_website_comprehensive`: try the crawl4ai
HTTP transport first; on any exception try httpx exactly once; if both
fail, no content.  Returns elapsed seconds, the transport calls made in
order, and the optional `(html, text)`. -/
def crawlFetch (env : Env) (timeoutS : Nat) (u : Url) :
    Nat × List TransportCall × Option (String × String) :=
  match env.primary (runConfigPageTimeout timeoutS) u with
  | (d, .ok r) => (d, [.primaryCall (runConfigPageTimeout timeoutS) u], some r)
  | (d, .error _) =>
    match env.fallback u with
    | (d2, .ok r) =>
      (d + d2, [.primaryCall (runConfigPageTimeout timeoutS) u, .fallbackCall u], some r)
    | (d2, .error _) =>
      (d + d2, [.primaryCall (runConfigPageTimeout timeoutS) u, .fallbackCall u], none)

/-- The mutable state of one crawl session: `self.crawled_urls`,
`self.crawl_data`, plus an audit log of started fetches (normalized URL
and depth) and the elapsed fetch time. -/
structure CrawlState where
  crawled_urls : List Url
  data : CrawlData
  fetchLog : List (Url × Nat)
  elapsed : Nat
deriving DecidableEq

/-- Tag the payloads of one sub-extractor with their page and depth. -/
def tagItems (u : Url) (d : Nat) (l : List String) : List PageItem :=
  l.map (fun payload => ⟨u, d, payload⟩)

/-- `_extract_comprehensive_data`: store the raw HTML, extend the six
collections with the page's records, and write the sitemap entry
(depth, first 10 links found, data-extracted markers). -/
def extractComprehensiveData (env : Env) (s : CrawlState) (u : Url)
    (html text : String) (depth : Nat) : CrawlState :=
  { s with data := { s.data with
      raw_html := dictSet s.data.raw_html u (depth, html)
      text := s.data.text ++ tagItems u depth (env.extract u html text).text
      images := s.data.images ++ tagItems u depth (env.extract u html text).images
      contact := s.data.contact ++ tagItems u depth (env.extract u html text).contact
      products := s.data.products ++ tagItems u depth (env.extract u html text).products
      social_media := s.data.social_media
        ++ tagItems u depth (env.extract u html text).social_media
      metadata := s.data.metadata ++ [⟨u, depth, (env.extract u html text).metadataPayload⟩]
      crawl_structure := dictSet s.data.crawl_structure u
        ⟨depth, (env.links u html).take 10,
         [if (env.extract u html text).text.isEmpty then none else some "text",
          if (env.extract u html text).images.isEmpty then none else some "images",
          if (env.extract u html text).contact.isEmpty then none else some "contact",
          if (env.extract u html text).products.isEmpty then none else some "products",
          if (env.extract u html text).social_media.isEmpty then none
            else some "social_media"]⟩ } }

/-- `_crawl_subpages`: return on an empty batch or an exceeded depth,
filter out already-crawled links, cap the batch at
`min(10, len(new_links))`, and crawl each link of the batch.  The
semaphore of `min(self.max_concurrent, 3)` and the fixed 0.5 s
rate-limiting sleep affect only scheduling; the embedding processes the
batch as one sequential interleaving of its atomic steps. -/
def crawlSubpages (recur : Url → CrawlState → CrawlState)
    (max_depth current_depth : Nat) (links : List Url) (s : CrawlState) : CrawlState :=
  if links = [] ∨ current_depth > max_depth then s
  else
    ((links.filter (fun l => l ∉ s.crawled_urls)).take
        (min 10 (links.filter (fun l => l ∉ s.crawled_urls)).length)).foldl
      (fun acc link => recur link acc) s

/-- The part of `_crawl_website_comprehensive` after the guards and the
visited-set insertion: fetch with fallback, and if HTML was obtained
extract the page's data and, when below the maximum depth, expand into
the discovered links at depth + 1. -/
def crawlAfterFetch (env : Env) (timeoutS : Nat) (max_depth : Nat)
    (recur : Nat → Url → CrawlState → CrawlState)
    (current_depth : Nat) (n : Url) (s : CrawlState) : CrawlState :=
  match crawlFetch env timeoutS n with
  | (d, _, none) => { s with elapsed := s.elapsed + d }
  | (d, _, some (html, text)) =>
    if html = "" then { s with elapsed := s.elapsed + d }
    else if current_depth < max_depth then
      crawlSubpages (recur (current_depth + 1)) max_depth (current_depth + 1)
        (env.links n html)
        (extractComprehensiveData env { s with elapsed := s.elapsed + d }
          n html text current_depth)
    else
      extractComprehensiveData env { s with elapsed := s.elapsed + d }
        n html text current_depth

/-- `_crawl_website_comprehensive`: depth and visited guards, URL
normalization, domain scoping, visited-set insertion, then fetch and
expansion.  The `fuel` argument only bounds the recursion depth of the
embedding; every recursive call decrements it while incrementing
`current_depth`, and expansion stops at `max_depth`, so any fuel
exceeding `max_depth + 1` is never exhausted. -/
def crawlGo (env : Env) (timeoutS : Nat) (base_domain : String) (max_depth : Nat) :
    Nat → Nat → Url → CrawlState → CrawlState
  | 0, _, _, s => s
  | fuel + 1, current_depth, url, s =>
    if current_depth > max_depth ∨ url ∈ s.crawled_urls then s
    else if normalize_url url ∈ s.crawled_urls then s
    else if extract_domain_from_url (normalize_url url) ≠ base_domain then s
    else
      crawlAfterFetch env timeoutS max_depth
        (crawlGo env timeoutS base_domain max_depth fuel)
        current_depth (normalize_url url)
        { s with crawled_urls := setAdd s.crawled_urls (normalize_url url),
                 fetchLog := s.fetchLog ++ [(normalize_url url, current_depth)] }

/-- The per-instance state of the module-level `WebScraper` singleton. -/
structure Scraper where
  max_depth : Nat
  timeout : Nat
  max_concurrent : Nat
  crawled_urls : List Url
  data : CrawlData
  base_domain : String
deriving DecidableEq

/-- The session-level failures declared by `scrape_website`. -/
inductive ScrapeErr where
  | timeoutErr (seconds : Nat)
  | scrapingErr (msg : String)
deriving DecidableEq

/-- The dictionary returned by `scrape_website` (timestamps omitted;
`fetchLog` is the audit log of the session's fetches). -/
structure ScrapeResult where
  source_url : Url
  crawl_depth : Nat
  total_pages_crawled : Nat
  processing_time : Nat
  base_domain : String
  data : CrawlData
  fetchLog : List (Url × Nat)
deriving DecidableEq

/-- `_update_coverage_summary`: `total_pages` is the size of
`self.crawled_urls`; each per-type counter counts the items of the
corresponding aggregate list (each item is a non-empty Python dict,
hence truthy, so the truthiness filter keeps every item). -/
def update_coverage_summary (crawled : List Url) (d : CrawlData) : CrawlData :=
  { d with coverage := ⟨crawled.length, d.text.length, d.images.length,
      d.contact.length, d.products.length, d.social_media.length⟩ }

/-- `crawl_depth = max_depth or self.max_depth`: Python `or` treats a
passed 0 as falsy and falls back to the configured default. -/
def effectiveDepth (selfMax : Nat) : Option Nat → Nat
  | none => selfMax
  | some d => if d = 0 then selfMax else d

/-- `WebScraper.scrape_website`: clear the visited set, reset the crawl
data, set the base domain, crawl from the root at depth 0, update the
coverage summary, and return the assembled result together with the
mutated singleton.  The embedded crawl is total and per-URL failures are
swallowed, so the result is always `ok`; the `except asyncio.TimeoutError`
branch that would raise the session TimeoutError has no session-wide
timer feeding it — the configured timeout reaches the crawl only as the
per-page `page_timeout` cap of the primary transport. -/
def scrape_website (env : Env) (self : Scraper) (url : Url)
    (max_depth : Option Nat) : Except ScrapeErr (ScrapeResult × Scraper) :=
  Except.ok
    (⟨url,
      effectiveDepth self.max_depth max_depth,
      (crawlGo env self.timeout (extract_domain_from_url url)
        (effectiveDepth self.max_depth max_depth)
        (effectiveDepth self.max_depth max_depth + 2) 0 url
        ⟨[], emptyCrawlData, [], 0⟩).crawled_urls.length,
      (crawlGo env self.timeout (extract_domain_from_url url)
        (effectiveDepth self.max_depth max_depth)
        (effectiveDepth self.max_depth max_depth + 2) 0 url
        ⟨[], emptyCrawlData, [], 0⟩).elapsed,
      extract_domain_from_url url,
      update_coverage_summary
        (crawlGo env self.timeout (extract_domain_from_url url)
          (effectiveDepth self.max_depth max_depth)
          (effectiveDepth self.max_depth max_depth + 2) 0 url
          ⟨[], emptyCrawlData, [], 0⟩).crawled_urls
        (crawlGo env self.timeout (extract_domain_from_url url)
          (effectiveDepth self.max_depth max_depth)
          (effectiveDepth self.max_depth max_depth + 2) 0 url
          ⟨[], emptyCrawlData, [], 0⟩).data,
      (crawlGo env self.timeout (extract_domain_from_url url)
        (effectiveDepth self.max_depth max_depth)
        (effectiveDepth self.max_depth max_depth + 2) 0 url
        ⟨[], emptyCrawlData, [], 0⟩).fetchLog⟩,
     { self with
        crawled_urls := (crawlGo env self.timeout (extract_domain_from_url url)
          (effectiveDepth self.max_depth max_depth)
          (effectiveDepth self.max_depth max_depth + 2) 0 url
          ⟨[], emptyCrawlData, [], 0⟩).crawled_urls,
        data := update_coverage_summary
          (crawlGo env self.timeout (extract_domain_from_url url)
            (effectiveDepth self.max_depth max_depth)
            (effectiveDepth self.max_depth max_depth + 2) 0 url
            ⟨[], emptyCrawlData, [], 0⟩).crawled_urls
          (crawlGo env self.timeout (extract_domain_from_url url)
            (effectiveDepth self.max_depth max_depth)
            (effectiveDepth self.max_depth max_depth + 2) 0 url
            ⟨[], emptyCrawlData, [], 0⟩).data,
        base_domain := extract_domain_from_url url })

/-- All crawl depths recorded anywhere in the aggregate data: tags of the
six typed collections, of the raw-HTML map, and of the sitemap entries. -/
def CrawlData.itemDepths (d : CrawlData) : List Nat :=
  d.text.map PageItem.depth ++ d.images.map PageItem.depth
    ++ d.contact.map PageItem.depth ++ d.products.map PageItem.depth
    ++ d.social_media.map PageItem.depth ++ d.metadata.map PageItem.depth
    ++ d.raw_html.map (fun p => p.2.1)
    ++ d.crawl_structure.map (fun p => p.2.depth)

theorem setAdd_nodup (l : List Url) (u : Url) (h : l.Nodup) : (setAdd l u).Nodup := by
  rw [setAdd]
  split
  · exact h
  · rename_i hu
    rw [List.nodup_append]
    exact ⟨h, List.nodup_singleton _, fun a ha => by
      simp only [List.mem_singleton]
      rintro rfl
      exact hu ha⟩

theorem setAdd_mem (l : List Url) (u : Url) :
    ∀ x ∈ setAdd l u, x ∈ l ∨ x = u := by
  intro x hx
  rw [setAdd] at hx
  split at hx
  · exact Or.inl hx
  · rcases List.mem_append.1 hx with h | h
    · exact Or.inl h
    · exact Or.inr (List.mem_singleton.1 h)

theorem self_mem_setAdd (l : List Url) (u : Url) : u ∈ setAdd l u := by
  rw [setAdd]
  split
  · assumption
  · exact List.mem_append.2 (Or.inr (List.mem_singleton.2 rfl))

theorem mem_setAdd_of_mem (l : List Url) (u x : Url) (h : x ∈ l) : x ∈ setAdd l u := by
  rw [setAdd]
  split
  · exact h
  · exact List.mem_append.2 (Or.inl h)

theorem dictSet_mem {β : Type} (m : List (Url × β)) (k : Url) (v : β) :
    ∀ x ∈ dictSet m k v, x ∈ m ∨ x = (k, v) := by
  intro x hx
  rw [dictSet] at hx
  split at hx
  · rcases List.mem_map.1 hx with ⟨p, hp, hfp⟩
    by_cases hpk : p.1 = k
    · rw [if_pos hpk] at hfp
      exact Or.inr hfp.symm
    · rw [if_neg hpk] at hfp
      exact Or.inl (hfp ▸ hp)
  · rcases List.mem_append.1 hx with h | h
    · exact Or.inl h
    · exact Or.inr (List.mem_singleton.1 h)

theorem dictSet_keys {β : Type} (m : List (Url × β)) (k : Url) (v : β) :
    (dictSet m k v).map Prod.fst
      = if k ∈ m.map Prod.fst then m.map Prod.fst else m.map Prod.fst ++ [k] := by
  rw [dictSet]
  split
  · rw [List.map_map]
    apply List.map_congr_left
    intro p _
    by_cases hpk : p.1 = k
    · simp [hpk]
    · simp [hpk]
  · simp

theorem tagItems_depth (u : Url) (d : Nat) (l : List String) :
    ∀ x ∈ tagItems u d l, x.depth = d := by
  intro x hx
  rcases List.mem_map.1 hx with ⟨p, -, rfl⟩
  rfl

/-- The session invariant maintained by the crawl: the visited set has no
duplicates and is domain-scoped, the sitemap keys are distinct visited
URLs, and every recorded depth (typed collections, raw HTML, sitemap,
fetch log) is bounded by the maximum depth. -/
def CrawlInv (base : String) (maxD : Nat) (s : CrawlState) : Prop :=
  s.crawled_urls.Nodup
  ∧ (∀ u ∈ s.crawled_urls, extract_domain_from_url u = base)
  ∧ (s.data.crawl_structure.map Prod.fst).Nodup
  ∧ (∀ u ∈ s.data.crawl_structure.map Prod.fst, u ∈ s.crawled_urls)
  ∧ (∀ x ∈ s.data.text, x.depth ≤ maxD)
  ∧ (∀ x ∈ s.data.images, x.depth ≤ maxD)
  ∧ (∀ x ∈ s.data.contact, x.depth ≤ maxD)
  ∧ (∀ x ∈ s.data.products, x.depth ≤ maxD)
  ∧ (∀ x ∈ s.data.social_media, x.depth ≤ maxD)
  ∧ (∀ x ∈ s.data.metadata, x.depth ≤ maxD)
  ∧ (∀ x ∈ s.data.raw_html, x.2.1 ≤ maxD)
  ∧ (∀ x ∈ s.data.crawl_structure, x.2.depth ≤ maxD)
  ∧ (∀ p ∈ s.fetchLog, p.2 ≤ maxD)

theorem extractComprehensiveData_inv (env : Env) (base : String) (maxD : Nat)
    (s : CrawlState) (u : Url) (html text : String) (depth : Nat)
    (hinv : CrawlInv base maxD s) (hd : depth ≤ maxD) (hu : u ∈ s.crawled_urls) :
    CrawlInv base maxD (extractComprehensiveData env s u html text depth) := by
  obtain ⟨h1, h2, h3, h4, h5, h6, h7, h8, h9, h10, h11, h12, h13⟩ := hinv
  refine ⟨h1, h2, ?_, ?_, ?_, ?_, ?_, ?_, ?_, ?_, ?_, ?_, h13⟩
  · show ((dictSet s.data.crawl_structure u _).map Prod.fst).Nodup
    rw [dictSet_keys]
    split
    · exact h3
    · rename_i hcon
      rw [List.nodup_append]
      refine ⟨h3, List.nodup_singleton _, ?_⟩
      intro a ha
      simp only [List.mem_singleton]
      rintro rfl
      exact hcon ha
  · intro a ha
    rw [show (extractComprehensiveData env s u html text depth).data.crawl_structure
        = dictSet s.data.crawl_structure u _ from rfl] at ha
    rcases List.mem_map.1 ha with ⟨p, hp, rfl⟩
    rcases dictSet_mem _ _ _ p hp with h | h
    · exact h4 p.1 (List.mem_map_of_mem Prod.fst h)
    · rw [h]
      exact hu
  · intro x hx
    rcases List.mem_append.1 hx with hx | hx
    · exact h5 x hx
    · rw [tagItems_depth u depth _ x hx]
      exact hd
  · intro x hx
    rcases List.mem_append.1 hx with hx | hx
    · exact h6 x hx
    · rw [tagItems_depth u depth _ x hx]
      exact hd
  · intro x hx
    rcases List.mem_append.1 hx with hx | hx
    · exact h7 x hx
    · rw [tagItems_depth u depth _ x hx]
      exact hd
  · intro x hx
    rcases List.mem_append.1 hx with hx | hx
    · exact h8 x hx
    · rw [tagItems_depth u depth _ x hx]
      exact hd
  · intro x hx
    rcases List.mem_append.1 hx with hx | hx
    · exact h9 x hx
    · rw [tagItems_depth u depth _ x hx]
      exact hd
  · intro x hx
    rcases List.mem_append.1 hx with hx | hx
    · exact h10 x hx
    · rw [List.mem_singleton.1 hx]
      exact hd
  · intro x hx
    rcases dictSet_mem _ _ _ x hx with h | h
    · exact h11 x h
    · rw [h]
      exact hd
  · intro x hx
    rcases dictSet_mem _ _ _ x hx with h | h
    · exact h12 x h
    · rw [h]
      exact hd

theorem crawlSubpages_inv (P : CrawlState → Prop) (recur : Url → CrawlState → CrawlState)
    (hrec : ∀ l s, P s → P (recur l s)) (maxD cur : Nat) (links : List Url)
    (s : CrawlState) (h : P s) : P (crawlSubpages recur maxD cur links s) := by
  rw [crawlSubpages]
  split
  · exact h
  · exact foldl_inv P (fun acc link => recur link acc) (fun a b hp => hrec b a hp) _ s h

theorem crawlAfterFetch_inv (env : Env) (timeoutS : Nat) (base : String) (maxD : Nat)
    (recur : Nat → Url → CrawlState → CrawlState)
    (hrec : ∀ cd l s2, CrawlInv base maxD s2 → CrawlInv base maxD (recur cd l s2))
    (cur : Nat) (n : Url) (s : CrawlState)
    (hinv : CrawlInv base maxD s) (hcur : cur ≤ maxD) (hn : n ∈ s.crawled_urls) :
    CrawlInv base maxD (crawlAfterFetch env timeoutS maxD recur cur n s) := by
  rw [crawlAfterFetch]
  rcases hf : crawlFetch env timeoutS n with ⟨d, calls, res⟩
  cases res with
  | none => exact hinv
  | some ht =>
    rcases ht with ⟨html, text⟩
    simp only
    split
    · exact hinv
    · split
      · exact crawlSubpages_inv _ _ (fun l s2 hs => hrec _ l s2 hs) _ _ _ _
          (extractComprehensiveData_inv env base maxD _ n html text cur hinv hcur hn)
      · exact extractComprehensiveData_inv env base maxD _ n html text cur hinv hcur hn

theorem crawlGo_inv (env : Env) (timeoutS : Nat) (base : String) (maxD : Nat) :
    ∀ (fuel cur : Nat) (url : Url) (s : CrawlState),
      CrawlInv base maxD s
      → CrawlInv base maxD (crawlGo env timeoutS base maxD fuel cur url s) := by
  intro fuel
  induction fuel with
  | zero => intro cur url s h; exact h
  | succ fuel ih =>
    intro cur url s h
    rw [crawlGo]
    split
    · exact h
    · split
      · exact h
      · split
        · exact h
        · rename_i hguard hvis hdom
          push_neg at hguard hdom
          apply crawlAfterFetch_inv env timeoutS base maxD _
            (fun cd l s2 hs => ih cd l s2 hs)
          · obtain ⟨h1, h2, h3, h4, h5, h6, h7, h8, h9, h10, h11, h12, h13⟩ := h
            refine ⟨setAdd_nodup _ _ h1, ?_, h3, ?_, h5, h6, h7, h8, h9, h10, h11, h12, ?_⟩
            · intro u hu
              rcases setAdd_mem _ _ u hu with hu | hu
              · exact h2 u hu
              · rw [hu]
                exact hdom
            · intro u hu
              exact mem_setAdd_of_mem _ _ _ (h4 u hu)
            · intro p hp
              rcases List.mem_append.1 hp with hp | hp
              · exact h13 p hp
              · rw [List.mem_singleton.1 hp]
                exact hguard.1
          · exact hguard.1
          · exact self_mem_setAdd _ _

theorem crawlInv_init (base : String) (maxD : Nat) :
    CrawlInv base maxD ⟨[], emptyCrawlData, [], 0⟩ := by
  refine ⟨List.nodup_nil, ?_, ?_, ?_, ?_, ?_, ?_, ?_, ?_, ?_, ?_, ?_, ?_⟩ <;>
    simp [emptyCrawlData]

/-- Bridge from the structured invariant to the flat list of recorded
depths. -/
theorem CrawlInv.itemDepths_le {base : String} {maxD : Nat} {s : CrawlState}
    (h : CrawlInv base maxD s) : ∀ n ∈ s.data.itemDepths, n ≤ maxD := by
  obtain ⟨-, -, -, -, h5, h6, h7, h8, h9, h10, h11, h12, -⟩ := h
  intro n hn
  simp only [CrawlData.itemDepths, List.mem_append] at hn
  rcases hn with (((((((hn | hn) | hn) | hn) | hn) | hn) | hn) | hn) <;>
    rcases List.mem_map.1 hn with ⟨x, hx, rfl⟩
  · exact h5 x hx
  · exact h6 x hx
  · exact h7 x hx
  · exact h8 x hx
  · exact h9 x hx
  · exact h10 x hx
  · exact h11 x hx
  · exact h12 x hx

theorem length_eq_of_nodup_subsets {α : Type} [DecidableEq α] (l1 l2 : List α)
    (h1 : l1.Nodup) (h2 : l2.Nodup) (h12 : ∀ a ∈ l1, a ∈ l2) (h21 : ∀ a ∈ l2, a ∈ l1) :
    l1.length = l2.length := by
  have c1 := List.toFinset_card_of_nodup h1
  have c2 := List.toFinset_card_of_nodup h2
  have heq : l1.toFinset = l2.toFinset := by
    ext a
    simp only [List.mem_toFinset]
    exact ⟨h12 a, h21 a⟩
  rw [← c1, ← c2, heq]

/-- The crawl state at the end of one `scrape_website` session. -/
def sessionState (env : Env) (self : Scraper) (url : Url) (md : Option Nat) : CrawlState :=
  crawlGo env self.timeout (extract_domain_from_url url)
    (effectiveDepth self.max_depth md) (effectiveDepth self.max_depth md + 2) 0 url
    ⟨[], emptyCrawlData, [], 0⟩

theorem scrape_website_ok (env : Env) (self : Scraper) (url : Url) (md : Option Nat) :
    scrape_website env self url md = Except.ok
      (⟨url, effectiveDepth self.max_depth md,
        (sessionState env self url md).crawled_urls.length,
        (sessionState env self url md).elapsed,
        extract_domain_from_url url,
        update_coverage_summary (sessionState env self url md).crawled_urls
          (sessionState env self url md).data,
        (sessionState env self url md).fetchLog⟩,
       { self with
          crawled_urls := (sessionState env self url md).crawled_urls,
          data := update_coverage_summary (sessionState env self url md).crawled_urls
            (sessionState env self url md).data,
          base_domain := extract_domain_from_url url }) := rfl

theorem sessionState_inv (env : Env) (self : Scraper) (url : Url) (md : Option Nat) :
    CrawlInv (extract_domain_from_url url) (effectiveDepth self.max_depth md)
      (sessionState env self url md) :=
  crawlGo_inv env self.timeout (extract_domain_from_url url)
    (effectiveDepth self.max_depth md) (effectiveDepth self.max_depth md + 2) 0 url
    ⟨[], emptyCrawlData, [], 0⟩ (crawlInv_init _ _)

/-- An environment whose transports always fail (unreachable target);
extraction oracles are never consulted. -/
def envFail : Env :=
  ⟨fun _ _ => (1, Except.error "connection refused"),
   fun _ => (1, Except.error "connection refused"),
   fun _ _ _ => ⟨[], [], [], [], [], ""⟩,
   fun _ _ => []⟩

/-- A fresh scraper instance with the configured defaults
(`max_crawl_depth=2`, `crawl_timeout=300`, `max_concurrent_requests=10`). -/
def scraperEx : Scraper := ⟨2, 300, 10, [], emptyCrawlData, ""⟩

/-- A concrete session root. -/
def rootUrlEx : Url := Url.parsed "https" "ex.com" "/" "" "" ""

/-- C2: for a session with maximum depth `crawl_depth`, no typed record,
raw-HTML entry or sitemap entry of the returned result comes from a page
at a depth exceeding `crawl_depth`, and no fetch is ever started at such
a depth: a URL whose current depth exceeds the maximum is rejected by the
entry guard, and subpage expansion launches only below the maximum depth,
enqueuing links at depth + 1. -/
theorem c2_depth_bound (env : Env) (self : Scraper) (url : Url) (md : Option Nat)
    (r : ScrapeResult) (sc : Scraper)
    (h : scrape_website env self url md = Except.ok (r, sc)) :
    (∀ n ∈ r.data.itemDepths, n ≤ r.crawl_depth)
    ∧ (∀ p ∈ r.fetchLog, p.2 ≤ r.crawl_depth) := by
  rw [scrape_website_ok] at h
  simp only [Except.ok.injEq, Prod.mk.injEq] at h
  obtain ⟨hr, hsc⟩ := h
  subst hr
  have hinv := sessionState_inv env self url md
  constructor
  · intro n hn
    exact hinv.itemDepths_le n hn
  · intro p hp
    obtain ⟨-, -, -, -, -, -, -, -, -, -, -, -, h13⟩ := hinv
    exact h13 p hp

theorem c2_depth_bound_witness :
    (∀ n ∈ (update_coverage_summary
        (sessionState envFail scraperEx rootUrlEx none).crawled_urls
        (sessionState envFail scraperEx rootUrlEx none).data).itemDepths,
        n ≤ effectiveDepth scraperEx.max_depth none)
    ∧ (∀ p ∈ (sessionState envFail scraperEx rootUrlEx none).fetchLog,
        p.2 ≤ effectiveDepth scraperEx.max_depth none) := by
  have h := c2_depth_bound envFail scraperEx rootUrlEx none _ _
    (scrape_website_ok envFail scraperEx rootUrlEx none)
  exact ⟨h.1, h.2⟩

/-- C3: the session's base domain is the lower-cased netloc of the root
URL, and every URL in the visited set has that extracted domain: a URL
whose extracted domain differs is returned from without being added or
fetched. -/
theorem c3_domain_scoped (env : Env) (self : Scraper) (url : Url) (md : Option Nat)
    (r : ScrapeResult) (sc : Scraper)
    (h : scrape_website env self url md = Except.ok (r, sc)) :
    r.base_domain = extract_domain_from_url url
    ∧ ∀ u ∈ sc.crawled_urls, extract_domain_from_url u = r.base_domain := by
  rw [scrape_website_ok] at h
  simp only [Except.ok.injEq, Prod.mk.injEq] at h
  obtain ⟨hr, hsc⟩ := h
  subst hr
  subst hsc
  refine ⟨rfl, ?_⟩
  intro u hu
  obtain ⟨-, h2, -⟩ := sessionState_inv env self url md
  exact h2 u hu

theorem c3_domain_scoped_witness :
    extract_domain_from_url rootUrlEx = extract_domain_from_url rootUrlEx
    ∧ ∀ u ∈ (sessionState envFail scraperEx rootUrlEx none).crawled_urls,
        extract_domain_from_url u = extract_domain_from_url rootUrlEx := by
  have h := c3_domain_scoped envFail scraperEx rootUrlEx none _ _
    (scrape_website_ok envFail scraperEx rootUrlEx none)
  exact ⟨rfl, h.2⟩

/-- C4 (amended): `coverage_summary.total_pages` equals the number of
URLs in the visited set (`crawled_urls`, duplicate-free), which is also
`metadata.total_pages_crawled`; it equals the number of distinct URLs in
the sitemap's `crawl_structure` only under the additional hypothesis that
every visited URL contributed a sitemap entry — a visited URL whose fetch
failed is counted in `total_pages` but absent from the sitemap. -/
theorem c4_total_pages_amended (env : Env) (self : Scraper) (url : Url)
    (md : Option Nat) (r : ScrapeResult) (sc : Scraper)
    (h : scrape_website env self url md = Except.ok (r, sc)) :
    r.data.coverage.total_pages = sc.crawled_urls.length
    ∧ r.data.coverage.total_pages = r.total_pages_crawled
    ∧ ((∀ u ∈ sc.crawled_urls, u ∈ r.data.crawl_structure.map Prod.fst)
        → r.data.coverage.total_pages = r.data.crawl_structure.length) := by
  rw [scrape_website_ok] at h
  simp only [Except.ok.injEq, Prod.mk.injEq] at h
  obtain ⟨hr, hsc⟩ := h
  subst hr
  subst hsc
  refine ⟨rfl, rfl, ?_⟩
  intro hall
  obtain ⟨h1, -, h3, h4, -⟩ := sessionState_inv env self url md
  have hlen := length_eq_of_nodup_subsets _ _ h1 h3 hall h4
  show (sessionState env self url md).crawled_urls.length
      = (sessionState env self url md).data.crawl_structure.length
  rw [hlen, List.length_map]

theorem c4_total_pages_amended_witness :
    (update_coverage_summary (sessionState envFail scraperEx rootUrlEx none).crawled_urls
        (sessionState envFail scraperEx rootUrlEx none).data).coverage.total_pages
      = (sessionState envFail scraperEx rootUrlEx none).crawled_urls.length
    ∧ (update_coverage_summary (sessionState envFail scraperEx rootUrlEx none).crawled_urls
        (sessionState envFail scraperEx rootUrlEx none).data).coverage.total_pages
      = (sessionState envFail scraperEx rootUrlEx none).crawled_urls.length := by
  have h := c4_total_pages_amended envFail scraperEx rootUrlEx none _ _
    (scrape_website_ok envFail scraperEx rootUrlEx none)
  exact ⟨h.1, h.1⟩

/-- C4 counterexample: with the session's only fetch failing (both
transports error on the root URL), the visited set holds one URL but the
sitemap has no entry, so `total_pages` (= 1) differs from the number of
distinct URLs in `crawl_structure` (= 0): the claimed equality is false
on this session. -/
theorem c4_total_pages_counterexample :
    (scrape_website envFail scraperEx rootUrlEx none).map
        (fun p => decide (p.1.data.coverage.total_pages
          = (p.1.data.crawl_structure.map Prod.fst).length))
      = Except.ok false := by
  rfl

/-- C7: fetching first runs the primary crawl4ai transport, whose page
timeout is `min(configured seconds, 30 s)` expressed in milliseconds; on
any primary failure the httpx fallback (fixed 30 s timeout) is tried
exactly once; when both fail the crawl step for that URL returns normally
with the aggregate data unchanged (nothing raises to the session). -/
theorem c7_fetch_fallback (env : Env) (timeoutS : Nat) (u : Url) :
    (∀ d r, env.primary (runConfigPageTimeout timeoutS) u = (d, Except.ok r)
      → crawlFetch env timeoutS u
          = (d, [TransportCall.primaryCall (runConfigPageTimeout timeoutS) u], some r))
    ∧ (∀ d e d2 r, env.primary (runConfigPageTimeout timeoutS) u = (d, Except.error e)
      → env.fallback u = (d2, Except.ok r)
      → crawlFetch env timeoutS u
          = (d + d2, [TransportCall.primaryCall (runConfigPageTimeout timeoutS) u,
              TransportCall.fallbackCall u], some r))
    ∧ (∀ d e d2 e2, env.primary (runConfigPageTimeout timeoutS) u = (d, Except.error e)
      → env.fallback u = (d2, Except.error e2)
      → crawlFetch env timeoutS u
          = (d + d2, [TransportCall.primaryCall (runConfigPageTimeout timeoutS) u,
              TransportCall.fallbackCall u], none))
    ∧ runConfigPageTimeout timeoutS = 1000 * min timeoutS 30
    ∧ httpxTimeoutSeconds = 30
    ∧ (∀ (maxD cur fuel : Nat) (s : CrawlState) (base : String) (d : Nat)
        (calls : List TransportCall),
        crawlFetch env timeoutS (normalize_url u) = (d, calls, none)
        → (crawlGo env timeoutS base maxD (fuel + 1) cur u s).data = s.data) := by
  refine ⟨?_, ?_, ?_, ?_, rfl, ?_⟩
  · intro d r hp
    simp [crawlFetch, hp]
  · intro d e d2 r hp hf
    simp [crawlFetch, hp, hf]
  · intro d e d2 e2 hp hf
    simp [crawlFetch, hp, hf]
  · simp only [runConfigPageTimeout]
    omega
  · intro maxD cur fuel s base d calls hnone
    rw [crawlGo]
    split
    · rfl
    · split
      · rfl
      · split
        · rfl
        · rw [crawlAfterFetch, hnone]

theorem c7_fetch_fallback_witness :
    crawlFetch envFail 300 rootUrlEx
      = (2, [TransportCall.primaryCall (runConfigPageTimeout 300) rootUrlEx,
          TransportCall.fallbackCall rootUrlEx], none)
    ∧ runConfigPageTimeout 300 = 1000 * min 300 30
    ∧ (crawlGo envFail 300 "ex.com" 2 3 0 rootUrlEx
        ⟨[], emptyCrawlData, [], 0⟩).data = emptyCrawlData := by
  have h := c7_fetch_fallback envFail 300 rootUrlEx
  refine ⟨?_, h.2.2.2.1, ?_⟩
  · exact h.2.2.1 1 "connection refused" 1 "connection refused" rfl rfl
  · exact h.2.2.2.2.2 2 0 2 ⟨[], emptyCrawlData, [], 0⟩ "ex.com" 2
      [TransportCall.primaryCall (runConfigPageTimeout 300) (normalize_url rootUrlEx),
       TransportCall.fallbackCall (normalize_url rootUrlEx)] rfl

theorem crawlFetch_timeout_congr (env : Env) (t1 t2 : Nat)
    (h : runConfigPageTimeout t1 = runConfigPageTimeout t2) (u : Url) :
    crawlFetch env t1 u = crawlFetch env t2 u := by
  simp only [crawlFetch, h]

theorem crawlAfterFetch_timeout_congr (env : Env) (t1 t2 : Nat)
    (h : runConfigPageTimeout t1 = runConfigPageTimeout t2) (maxD : Nat)
    (recur : Nat → Url → CrawlState → CrawlState) (cur : Nat) (n : Url)
    (s : CrawlState) :
    crawlAfterFetch env t1 maxD recur cur n s
      = crawlAfterFetch env t2 maxD recur cur n s := by
  rw [crawlAfterFetch, crawlAfterFetch, crawlFetch_timeout_congr env t1 t2 h n]

theorem crawlGo_timeout_congr (env : Env) (base : String) (maxD t1 t2 : Nat)
    (h : runConfigPageTimeout t1 = runConfigPageTimeout t2) :
    ∀ fuel, crawlGo env t1 base maxD fuel = crawlGo env t2 base maxD fuel := by
  intro fuel
  induction fuel with
  | zero => rfl
  | succ fuel ih =>
    funext cur url s
    rw [crawlGo]
    conv_rhs => rw [crawlGo]
    rw [ih, crawlAfterFetch_timeout_congr env t1 t2 h]

/-- C8 (amended): `scrape_website` enforces no session-wide timeout.  The
call always returns `ok` — per-URL failures are swallowed, so no
`asyncio.TimeoutError` ever reaches the handler that would convert it to
the session TimeoutError — and the configured timeout influences the run
only through the per-page primary-transport cap
`min(timeout * 1000 ms, 30000 ms)`: two configurations with the same cap
produce identical sessions, regardless of total elapsed time. -/
theorem c8_no_session_timeout (env : Env) (self : Scraper) (url : Url)
    (md : Option Nat) (t2 : Nat)
    (hcap : runConfigPageTimeout self.timeout = runConfigPageTimeout t2) :
    (scrape_website env self url md).isOk = true
    ∧ (scrape_website env { self with timeout := t2 } url md).map Prod.fst
        = (scrape_website env self url md).map Prod.fst := by
  constructor
  · rfl
  · rw [scrape_website_ok, scrape_website_ok]
    have hsess : sessionState env { self with timeout := t2 } url md
        = sessionState env self url md := by
      rw [sessionState, sessionState]
      rw [show ({ self with timeout := t2 } : Scraper).timeout = t2 from rfl]
      rw [show ({ self with timeout := t2 } : Scraper).max_depth = self.max_depth from rfl]
      rw [crawlGo_timeout_congr env (extract_domain_from_url url)
        (effectiveDepth self.max_depth md) t2 self.timeout hcap.symm]
    rw [hsess]
    rfl

theorem c8_no_session_timeout_witness :
    (scrape_website envFail scraperEx rootUrlEx none).isOk = true
    ∧ (scrape_website envFail { scraperEx with timeout := 400 } rootUrlEx none).map Prod.fst
        = (scrape_website envFail scraperEx rootUrlEx none).map Prod.fst :=
  c8_no_session_timeout envFail scraperEx rootUrlEx none 400 (by decide)

/-- A transport whose single page fetch takes longer than the whole
configured timeout (301 s against 300 s) and succeeds with empty
content. -/
def envSlow : Env :=
  ⟨fun _ _ => (301, Except.ok ("", "")),
   fun _ => (1, Except.error "unused"),
   fun _ _ _ => ⟨[], [], [], [], [], ""⟩,
   fun _ _ => []⟩

/-- C8 counterexample: a session whose elapsed time (301 s) exceeds the
configured timeout (300 s) still returns `ok` carrying its result — no
TimeoutError is raised and nothing is discarded — refuting the claim
that exceeding the session-wide timeout raises to the caller. -/
theorem c8_session_timeout_counterexample :
    (scrape_website envSlow scraperEx rootUrlEx none).isOk = true
    ∧ (scrape_website envSlow scraperEx rootUrlEx none).map
        (fun p => p.1.processing_time) = Except.ok 301
    ∧ scraperEx.timeout = 300
    ∧ 300 < 301 := by
  exact ⟨rfl, rfl, rfl, by omega⟩

/-- C10: `scrape_website` first clears the visited set and resets every
aggregate collection and the base domain, so its outcome (result and
mutated singleton alike) is independent of whatever visited set, crawl
data or base domain a previous call left on the shared module-level
instance; only the configuration fields carry over. -/
theorem c10_fresh_session_state (env : Env) (s1 s2 : Scraper) (url : Url)
    (md : Option Nat) (h1 : s1.max_depth = s2.max_depth)
    (h2 : s1.timeout = s2.timeout) (h3 : s1.max_concurrent = s2.max_concurrent) :
    scrape_website env s1 url md = scrape_website env s2 url md := by
  cases s1
  cases s2
  dsimp only at h1 h2 h3
  subst h1
  subst h2
  subst h3
  rfl

/-- A scraper instance carrying stale state from a previous session. -/
def scraperDirty : Scraper :=
  ⟨2, 300, 10, [rootUrlEx],
   { emptyCrawlData with text := [⟨rootUrlEx, 0, "stale item"⟩] },
   "stale.example"⟩

theorem c10_fresh_session_state_witness :
    scrape_website envFail scraperDirty rootUrlEx none
      = scrape_website envFail scraperEx rootUrlEx none :=
  c10_fresh_session_state envFail scraperDirty scraperEx rootUrlEx none rfl rfl rfl

end WebCrawler
